import Mathlib

/-!
Verification of the serial command-stream decoders of the
TempeHS AIDriver MicroPython project.

The definitions below are shallow embeddings of the Python sources:
* `lib/hm10_controller.py` — the fixed-size packet decoder (`HM10Controller`),
  speed expansion `_expand_speed`, staleness watchdog and telemetry encoder;
* `lib/gamepad_pico.py` — the delimiter-framed decoder (`GamePad`);
* `lib/gamepad_driver_controller.py` — the gamepad-to-motor translator
  (`GamepadAIDriverController.update`).

Bytes are modelled as `Nat` values (callers only ever produce values `< 256`);
timestamps (`ticks_ms`) are modelled as `Int` parameters threaded through each
call, with `ticks_diff a b` embedded as `a - b`.
-/

namespace AIDriver

/-- Embeds `_to_signed` from hm10_controller.py: reinterpret an unsigned byte as a
signed int8. -/
def toSigned (byteValue : Nat) : Int :=
  if byteValue ≥ 128 then (byteValue : Int) - 256 else (byteValue : Int)

/-- Embeds `_expand_speed` from hm10_controller.py: map the compact int8 encoding back
to the -255..255 classroom range.  Both divisions act on non-negative operands,
so Lean's integer division coincides with Python's floor division here. -/
def expandSpeed (byteValue : Nat) : Int :=
  let signed := toSigned byteValue
  if signed = 0 then 0
  else
    let scaled := signed * 255
    let scaled := if scaled > 0 then (scaled + 63) / 127 else -((-scaled + 63) / 127)
    if scaled > 255 then 255
    else if scaled < -255 then -255
    else scaled

/-- Round-half-away-from-zero division of the integer `n` by the positive
denominator `d` (the rounding law named by the specification).  For `n ≥ 0`
this is `⌊(2n + d) / (2d)⌋`, which rounds up exactly when the remainder is at
least `d/2`; the negative case mirrors it. -/
def roundHalfAwayDiv (n : Int) (d : Nat) : Int :=
  if n ≥ 0 then (2 * n + d) / (2 * d) else -((2 * (-n) + d) / (2 * d))

/-- Clamp an integer into `[-255, 255]`. -/
def clamp255 (n : Int) : Int := max (-255) (min n 255)

/-- The publicly readable command state of `HM10Controller` (`flags`,
`left_speed`, `right_speed`, `counter`, `last_command_ms`). -/
structure Cmd where
  flags : Nat
  leftSpeed : Int
  rightSpeed : Int
  counter : Nat
  lastCommandMs : Int
deriving Repr, DecidableEq

/-- Full decoder state of an `HM10Controller` instance: the receive buffer,
the consumed-prefix index, and the cached command state.  The UART itself is
external; incoming bytes are passed to `poll` as a list. -/
structure HM10State where
  buffer : List Nat
  bufferIndex : Nat
  cmd : Cmd
deriving Repr, DecidableEq

/-- Embeds `command_timeout_ms` default from `HM10Controller.__init__`. -/
def commandTimeoutMs : Int := 500

/-- Embeds `telemetry_interval_ms` default from `HM10Controller.__init__`. -/
def telemetryIntervalMs : Int := 200

/-- Embeds `self._max_buffer_bytes = 64` from `HM10Controller.__init__`. -/
def maxBufferBytes : Nat := 64

/-- The command state established by `__init__` (and by `reset`): all fields
zero, `last_command_ms` stamped with the current time. -/
def Cmd.init (now : Int) : Cmd := ⟨0, 0, 0, 0, now⟩

/-- Embeds `HM10Controller._decode_packet`: decode a 3- or 4-byte slice into the
cached command state; a 3-byte packet keeps the previous counter. -/
def decodePacket (c : Cmd) (packet : List Nat) (now : Int) : Cmd :=
  { flags := packet.getD 0 0
    leftSpeed := expandSpeed (packet.getD 1 0)
    rightSpeed := expandSpeed (packet.getD 2 0)
    counter := if 3 < packet.length then packet.getD 3 0 else c.counter
    lastCommandMs := now }

/-- The `while available >= 4` loop of `HM10Controller.poll`: decode 4-byte
packets and advance the consumed index while at least four unconsumed bytes
remain.  Returns the final index, command state and updated flag. -/
def pollLoop (buffer : List Nat) (idx : Nat) (c : Cmd) (now : Int)
    (updated : Bool) : Nat × Cmd × Bool :=
  if h : buffer.length - idx ≥ 4 then
    pollLoop buffer (idx + 4) (decodePacket c ((buffer.drop idx).take 4) now) now true
  else
    (idx, c, updated)
termination_by buffer.length - idx
decreasing_by omega

/-- The complete 4-byte packets present in `buffer` from offset `idx` on, in
arrival order: exactly the slices the `while available >= 4` loop consumes. -/
def packets4 (buffer : List Nat) (idx : Nat) : List (List Nat) :=
  if h : buffer.length - idx ≥ 4 then
    ((buffer.drop idx).take 4) :: packets4 buffer (idx + 4)
  else []
termination_by buffer.length - idx
decreasing_by omega

/-- Embeds `HM10Controller.reset`: clear buffered data and reset the command state,
restamping `last_command_ms` with the current time. -/
def HM10State.reset (now : Int) : HM10State :=
  { buffer := [], bufferIndex := 0, cmd := Cmd.init now }

/-- The trim step of `HM10Controller.poll`: drop the consumed prefix when the
whole buffer is consumed or the consumed index has passed 32 bytes; otherwise
keep the buffer and the index as they are. -/
def trimBuffer (buffer : List Nat) (idx : Nat) : List Nat × Nat :=
  if idx ≠ 0 then
    if idx ≥ buffer.length then ([], 0)
    else if idx > 32 then (buffer.drop idx, 0)
    else (buffer, idx)
  else (buffer, idx)

/-- Embeds `HM10Controller.poll`: append newly read bytes, consume every complete
4-byte packet, fall back to one legacy 3-byte packet when no 4-byte packet was
available, trim the consumed prefix, and fully reset when the buffer exceeds
its 64-byte cap.  Returns the `updated` flag together with the new state. -/
def HM10State.poll (s : HM10State) (data : List Nat) (now : Int) :
    Bool × HM10State :=
  let buffer := s.buffer ++ data
  let r := pollLoop buffer s.bufferIndex s.cmd now false
  let r :=
    if ¬ r.2.2 ∧ buffer.length - r.1 ≥ 3 then
      (r.1 + 3, decodePacket r.2.1 ((buffer.drop r.1).take 3) now, true)
    else r
  let trimmed := trimBuffer buffer r.1
  let s' : HM10State := ⟨trimmed.1, trimmed.2, r.2.1⟩
  if trimmed.1.length > maxBufferBytes then (r.2.2, HM10State.reset now)
  else (r.2.2, s')

/-- Embeds `HM10Controller.is_brake_requested`: bit 0 of the flags byte. -/
def isBrakeRequested (c : Cmd) : Bool := c.flags &&& 0x01 ≠ 0

/-- Embeds `HM10Controller.is_stale`: `ticks_diff(ticks_ms(), last_command_ms)`
exceeds the command timeout; `ticks_diff` is embedded as subtraction. -/
def isStale (c : Cmd) (now : Int) (timeout : Int) : Bool :=
  now - c.lastCommandMs > timeout

/-- Embeds `HM10Controller.send_ultrasonic`: rate-limited telemetry send.  The state
is the `_last_telemetry_ms` stamp; the result is the success flag, the updated
stamp and the bytes written to the UART (empty when rate-limited). -/
def sendUltrasonic (lastTelemetryMs : Int) (now : Int) (distanceMm : Int) :
    Bool × Int × List Nat :=
  if now - lastTelemetryMs < telemetryIntervalMs then
    (false, lastTelemetryMs, [])
  else
    let d := (max 0 (min distanceMm 65535)).toNat
    (true, now, [0x01, (d >>> 8) &&& 0xFF, d &&& 0xFF])

/-! ### GamePad frame decoder (`lib/gamepad_pico.py`) -/

/-- Embeds `START_OF_FRAME = 0xC0`. -/
def START_OF_FRAME : Nat := 0xC0

/-- Embeds `END_OF_FRAME = 0xC1`. -/
def END_OF_FRAME : Nat := 0xC1

/-- Decoder state of a `GamePad` instance: the cached decoded values
(`mode`, `value0`, `value`), the frame accumulation buffer and the in-frame
flag.  The UART is external; `poll` receives the pending bytes as a list. -/
structure GamePadState where
  mode : Nat
  value0 : Nat
  value : Nat
  frame : List Nat
  inFrame : Bool
deriving Repr, DecidableEq

/-- Embeds `GamePad.__init__`: mode, value0, value start at zero, empty frame,
not in-frame. -/
def GamePadState.init : GamePadState := ⟨0, 0, 0, [], false⟩

/-- The typed input event the specification's FrameDecoder emits: the state
update `_process_frame` performs, made explicit as a tagged value. -/
inductive InputEvent where
  | digital (value0 value : Nat)
  | analog (value0 value : Nat)
deriving Repr, DecidableEq

/-- The validation and dispatch of `GamePad._process_frame`, instrumented to
return the event it would apply: `none` when the frame is dropped (shorter
than 6 bytes, wrong module id, or unknown function id). -/
def frameEvent (buf : List Nat) : Option InputEvent :=
  if buf.length < 6 then none
  else
    match buf with
    | moduleId :: functionId :: _argCount :: _len0 :: v0 :: v :: _ =>
      if moduleId ≠ 0x01 then none
      else if functionId = 0x01 then some (.digital v0 v)
      else if functionId = 0x02 ∨ functionId = 0x03 then some (.analog v0 v)
      else none
    | _ => none

/-- Apply an (optional) decoded event to the cached state: digital events set
`mode := 0`, analog/accelerometer events set `mode := 1`; both overwrite
`value0` and `value`. -/
def applyEvent (s : GamePadState) : Option InputEvent → GamePadState
  | none => s
  | some (.digital v0 v) => { s with mode := 0, value0 := v0, value := v }
  | some (.analog v0 v) => { s with mode := 1, value0 := v0, value := v }

/-- Embeds `GamePad._process_frame`: parse a completed frame body and update the
cached state, dropping invalid frames silently. -/
def processFrame (s : GamePadState) (buf : List Nat) : GamePadState :=
  applyEvent s (frameEvent buf)

/-- One iteration of the `GamePad.poll` byte loop, also reporting the event
emitted (if a frame was completed and accepted).  Outside a frame, only the
start marker does anything; inside a frame, the end marker closes and parses
it and any other byte is appended. -/
def handleByte (s : GamePadState) (byte : Nat) :
    GamePadState × Option InputEvent :=
  if ¬ s.inFrame then
    if byte = START_OF_FRAME then ({ s with frame := [], inFrame := true }, none)
    else (s, none)
  else if byte = END_OF_FRAME then
    ({ processFrame s s.frame with inFrame := false }, frameEvent s.frame)
  else
    ({ s with frame := s.frame ++ [byte] }, none)

/-- One step of the instrumented poll loop: advance the state and append the
emitted event (if any) to the accumulated event list. -/
def pollStep (acc : GamePadState × List InputEvent) (b : Nat) :
    GamePadState × List InputEvent :=
  let r := handleByte acc.1 b
  (r.1, acc.2 ++ r.2.toList)

/-- Embeds `GamePad.poll`, instrumented to collect the emitted events in order. -/
def pollEvents (s : GamePadState) (data : List Nat) :
    GamePadState × List InputEvent :=
  data.foldl pollStep (s, [])

/-- Embeds `GamePad.poll`: the state reached after consuming all pending bytes. -/
def GamePadState.poll (s : GamePadState) (data : List Nat) : GamePadState :=
  data.foldl (fun acc b => (handleByte acc b).1) s

/-- Embeds `GamePad.is_start_pressed`: bit 0 (`START_BIT`) of `value0`. -/
def isStartPressed (s : GamePadState) : Bool := s.value0 &&& 1 ≠ 0

/-- Embeds `GamePad.is_up_pressed`: digital mode and bit 0 (`UP_BIT`) of `value`. -/
def isUpPressed (s : GamePadState) : Bool := s.mode = 0 ∧ s.value &&& 1 ≠ 0

/-- Embeds `GamePad.is_down_pressed`: digital mode and bit 1 (`DOWN_BIT`). -/
def isDownPressed (s : GamePadState) : Bool := s.mode = 0 ∧ s.value &&& 2 ≠ 0

/-- Embeds `GamePad.is_left_pressed`: digital mode and bit 2 (`LEFT_BIT`). -/
def isLeftPressed (s : GamePadState) : Bool := s.mode = 0 ∧ s.value &&& 4 ≠ 0

/-- Embeds `GamePad.is_right_pressed`: digital mode and bit 3 (`RIGHT_BIT`). -/
def isRightPressed (s : GamePadState) : Bool := s.mode = 0 ∧ s.value &&& 8 ≠ 0

/-- Embeds `GamePad.get_angle`: `(value >> 3) * 15` in analog mode, else 0. -/
def getAngle (s : GamePadState) : Nat :=
  if s.mode = 0 then 0 else (s.value >>> 3) * 15

/-- Embeds `GamePad.get_radius`: `value & 0x07` in analog mode, else 0. -/
def getRadius (s : GamePadState) : Nat :=
  if s.mode = 0 then 0 else s.value &&& 0x07

/-! ### Gamepad-to-AIDriver translation (`lib/gamepad_driver_controller.py`) -/

/-- The motor-driver call selected by one `GamepadAIDriverController.update`.
The floating-point tank-drive body of the analog branch is abstracted as
`analogTranslate` carrying the angle/radius inputs it would translate; the
claims settled here only distinguish entering that branch from braking. -/
inductive DriverAction where
  | brake
  | driveForward (l r : Int)
  | driveBackward (l r : Int)
  | rotateLeft (speed : Int)
  | rotateRight (speed : Int)
  | analogTranslate (angleDeg radius : Nat)
deriving Repr, DecidableEq

/-- Embeds `max_speed` default of `GamepadAIDriverController`. -/
def maxSpeed : Int := 255

/-- Embeds `turn_speed` default of `GamepadAIDriverController`. -/
def turnSpeed : Int := 180

/-- Embeds `GamepadAIDriverController.update`: poll the gamepad, then select a driver
action with START-button emergency brake first, d-pad next, analog mode next,
brake otherwise. -/
def controllerUpdate (g : GamePadState) (data : List Nat) :
    GamePadState × DriverAction :=
  let g := g.poll data
  if isStartPressed g then (g, .brake)
  else if isUpPressed g then (g, .driveForward maxSpeed maxSpeed)
  else if isDownPressed g then (g, .driveBackward maxSpeed maxSpeed)
  else if isLeftPressed g then (g, .rotateLeft turnSpeed)
  else if isRightPressed g then (g, .rotateRight turnSpeed)
  else if g.mode ≠ 0 then (g, .analogTranslate (getAngle g) (getRadius g))
  else (g, .brake)

/-! ## Theorems -/

set_option maxRecDepth 8000

/-- C1: for every input byte, `_expand_speed` equals the
round-half-away-from-zero rescaling of `s * 255 / 127` clamped to
`[-255, 255]` (where `s` is the byte read as a signed int8); the result always
lies in `[-255, 255]`, with `0x7F ↦ 255`, `0x80 ↦ -255` and `0x00 ↦ 0`. -/
theorem expandSpeed_rounding_law :
    (∀ b < 256, expandSpeed b = clamp255 (roundHalfAwayDiv (toSigned b * 255) 127) ∧
        -255 ≤ expandSpeed b ∧ expandSpeed b ≤ 255) ∧
    expandSpeed 0x7F = 255 ∧ expandSpeed 0x80 = -255 ∧ expandSpeed 0x00 = 0 := by
  exact ⟨by decide, by decide, by decide, by decide⟩

/-- Witness for C1 at the concrete byte `0xC8`. -/
theorem expandSpeed_rounding_law_witness :
    expandSpeed 200 = clamp255 (roundHalfAwayDiv (toSigned 200 * 255) 127) :=
  (expandSpeed_rounding_law.1 200 (by decide)).1

/-- C2: `is_stale` holds exactly when the elapsed time since
`last_command_ms` strictly exceeds the 500 ms command timeout; at exactly the
timeout the command is still fresh. -/
theorem isStale_iff_timeout_exceeded (c : Cmd) (now : Int) :
    (isStale c now commandTimeoutMs = true ↔ now - c.lastCommandMs > 500) ∧
    (now - c.lastCommandMs = 500 → isStale c now commandTimeoutMs = false) := by
  refine ⟨?_, ?_⟩
  · simp [isStale, commandTimeoutMs]
  · intro h
    simp [isStale, commandTimeoutMs, h]

/-- Witness for C2: a command stamped at time 0 is fresh at 500 ms and stale
at 501 ms. -/
theorem isStale_iff_timeout_exceeded_witness :
    isStale (Cmd.init 0) 500 commandTimeoutMs = false ∧
    isStale (Cmd.init 0) 501 commandTimeoutMs = true :=
  ⟨(isStale_iff_timeout_exceeded (Cmd.init 0) 500).2 (by decide),
   (isStale_iff_timeout_exceeded (Cmd.init 0) 501).1.mpr (by decide)⟩

/-- C5: `send_ultrasonic` succeeds exactly when at least
`telemetry_interval_ms` has elapsed since the last successful send; on success
it writes exactly `[0x01, (v >>> 8) &&& 0xFF, v &&& 0xFF]` for the clamped
value `v` and restamps the send time; on failure it writes nothing and leaves
the stamp unchanged, so a retry once the full interval has elapsed succeeds. -/
theorem sendUltrasonic_rate_limited (last now : Int) (d : Int) :
    ((sendUltrasonic last now d).1 = true ↔ telemetryIntervalMs ≤ now - last) ∧
    ((sendUltrasonic last now d).1 = false →
        sendUltrasonic last now d = (false, last, [])) ∧
    ((sendUltrasonic last now d).1 = true →
        (sendUltrasonic last now d).2.1 = now ∧
        (sendUltrasonic last now d).2.2 =
          [0x01, ((max 0 (min d 65535)).toNat >>> 8) &&& 0xFF,
            (max 0 (min d 65535)).toNat &&& 0xFF]) ∧
    (∀ now2 : Int, (sendUltrasonic last now d).1 = false →
        telemetryIntervalMs ≤ now2 - (sendUltrasonic last now d).2.1 →
        (sendUltrasonic (sendUltrasonic last now d).2.1 now2 d).1 = true) := by
  by_cases h : now - last < telemetryIntervalMs
  · have hfst : sendUltrasonic last now d = (false, last, []) := by
      simp [sendUltrasonic, h]
    refine ⟨?_, fun _ => hfst, ?_, ?_⟩
    · rw [hfst]
      simp
      omega
    · intro hc
      rw [hfst] at hc
      simp at hc
    · intro now2 _ h2
      rw [hfst] at h2 ⊢
      have h2' : telemetryIntervalMs ≤ now2 - last := h2
      show (sendUltrasonic last now2 d).1 = true
      unfold sendUltrasonic
      rw [if_neg (by omega)]
  · have hfst : sendUltrasonic last now d =
        (true, now, [0x01, ((max 0 (min d 65535)).toNat >>> 8) &&& 0xFF,
          (max 0 (min d 65535)).toNat &&& 0xFF]) := by
      simp [sendUltrasonic, h]
    refine ⟨?_, ?_, ?_, ?_⟩
    · rw [hfst]
      simp
      omega
    · intro hc
      rw [hfst] at hc
      simp at hc
    · intro _
      rw [hfst]
      exact ⟨rfl, rfl⟩
    · intro now2 hc
      rw [hfst] at hc
      simp at hc

/-- Witness for C5: with the stamp at 0, a send at 100 ms fails with no output
and an unchanged stamp, and the retry at 200 ms succeeds. -/
theorem sendUltrasonic_rate_limited_witness :
    sendUltrasonic 0 100 1234 = (false, 0, []) ∧
    (sendUltrasonic (sendUltrasonic 0 100 1234).2.1 200 1234).1 = true :=
  ⟨(sendUltrasonic_rate_limited 0 100 1234).2.1 (by decide),
   (sendUltrasonic_rate_limited 0 100 1234).2.2.2 200 (by decide) (by decide)⟩

/-- The instrumented poll loop from an arbitrary accumulator: the state result
is independent of the accumulated events, and events are appended in order. -/
theorem pollEvents_acc (data : List Nat) :
    ∀ (s : GamePadState) (evs : List InputEvent),
      data.foldl pollStep (s, evs) =
        ((pollEvents s data).1, evs ++ (pollEvents s data).2) := by
  induction data with
  | nil =>
    intro s evs
    simp [pollEvents]
  | cons b bs ih =>
    intro s evs
    have e1 := ih (handleByte s b).1 (evs ++ (handleByte s b).2.toList)
    have e2 := ih (handleByte s b).1 (handleByte s b).2.toList
    show bs.foldl pollStep (pollStep (s, evs) b) = _
    have hps : pollStep (s, evs) b =
        ((handleByte s b).1, evs ++ (handleByte s b).2.toList) := rfl
    have hcons : pollEvents s (b :: bs) =
        bs.foldl pollStep ((handleByte s b).1, (handleByte s b).2.toList) := rfl
    rw [hps, e1, hcons, e2]
    simp

/-- The instrumented poll agrees with the plain state-only poll. -/
theorem pollEvents_fst (s : GamePadState) (data : List Nat) :
    (pollEvents s data).1 = s.poll data := by
  induction data generalizing s with
  | nil => rfl
  | cons b bs ih =>
    show (bs.foldl pollStep (pollStep (s, []) b)).1 = _
    rw [show pollStep (s, []) b =
      ((handleByte s b).1, (handleByte s b).2.toList) from rfl, pollEvents_acc]
    exact ih (handleByte s b).1

/-- C6: from a freshly constructed decoder, a byte stream that never contains
the start marker `0xC0` emits no `InputEvent` and leaves the whole decoder
state — in particular `mode`, `value0` and `value` — at its initial values. -/
theorem no_start_marker_no_event (data : List Nat)
    (h : START_OF_FRAME ∉ data) :
    pollEvents GamePadState.init data = (GamePadState.init, []) := by
  induction data with
  | nil => rfl
  | cons b bs ih =>
    have hb : ¬ b = START_OF_FRAME := fun e => h (e ▸ List.mem_cons_self b bs)
    have ht := ih (fun hm => h (List.mem_cons_of_mem b hm))
    calc pollEvents GamePadState.init (b :: bs)
        = bs.foldl pollStep (pollStep (GamePadState.init, []) b) := by
          simp [pollEvents]
      _ = bs.foldl pollStep (GamePadState.init, []) := by
          simp [pollStep, handleByte, GamePadState.init, hb]
      _ = (GamePadState.init, []) := ht

/-- Witness for C6: the stream `[0x10, 0xC1, 0x37]` contains no start marker
and leaves the fresh decoder untouched with no events. -/
theorem no_start_marker_no_event_witness :
    pollEvents GamePadState.init [0x10, 0xC1, 0x37] = (GamePadState.init, []) :=
  no_start_marker_no_event [0x10, 0xC1, 0x37] (by decide)

/-- C7: frame reassembly is call-boundary independent: feeding `d1` then `d2`
in two poll calls reaches the same decoder state as feeding `d1 ++ d2` in one
call, and the one-call event list is exactly the two-call event lists
concatenated.  (Splitting one well-formed frame at any point is the special
case `d1 ++ d2 = frame bytes`.) -/
theorem poll_call_boundary_independent (s : GamePadState) (d1 d2 : List Nat) :
    GamePadState.poll s (d1 ++ d2) = (s.poll d1).poll d2 ∧
    pollEvents s (d1 ++ d2) =
      ((pollEvents (pollEvents s d1).1 d2).1,
        (pollEvents s d1).2 ++ (pollEvents (pollEvents s d1).1 d2).2) := by
  constructor
  · simp [GamePadState.poll, List.foldl_append]
  · calc pollEvents s (d1 ++ d2)
        = d2.foldl pollStep (pollEvents s d1) := by
          simp [pollEvents, List.foldl_append]
      _ = _ := by
          rw [show pollEvents s d1 = ((pollEvents s d1).1, (pollEvents s d1).2)
            from rfl, pollEvents_acc]

/-- C8 counterexample: the frame body `[0x01, 0x01, 0x05, 0x09, 0x07, 0x00]`
declares an argument count of 5 and a payload length of 9, mismatching its
actual 2-byte payload, yet it is decoded anyway: an event is emitted and the
decoded state changes, contradicting the claim that such frames are dropped. -/
theorem length_mismatch_frame_still_decoded :
    frameEvent [0x01, 0x01, 0x05, 0x09, 0x07, 0x00] =
      some (.digital 0x07 0x00) ∧
    processFrame GamePadState.init [0x01, 0x01, 0x05, 0x09, 0x07, 0x00] ≠
      GamePadState.init := by
  decide

/-- C8 amended: a completed frame body with the wrong module id (≠ 0x01) or
shorter than 6 bytes is dropped — no event, decoded state unchanged — and on
an end marker the decoder always returns to the ready-for-next-frame state;
the declared argument-count and payload-length bytes are not validated. -/
theorem invalid_frame_dropped :
    (∀ (s : GamePadState) (buf : List Nat),
        buf.length < 6 ∨ buf.getD 0 0 ≠ 0x01 →
        frameEvent buf = none ∧ processFrame s buf = s) ∧
    (∀ s : GamePadState, s.inFrame = true →
        ((handleByte s END_OF_FRAME).1).inFrame = false) := by
  constructor
  · intro s buf h
    have hev : frameEvent buf = none := by
      rcases h with hl | hm
      · simp [frameEvent, hl]
      · by_cases hl : buf.length < 6
        · simp [frameEvent, hl]
        · rcases buf with _ | ⟨a, buf⟩
          · simp at hl
          · have ha : a ≠ 1 := by simpa using hm
            rcases buf with _ | ⟨b, _ | ⟨c, _ | ⟨d, _ | ⟨e, _ | ⟨f, rest⟩⟩⟩⟩⟩ <;>
              simp_all [frameEvent]
    exact ⟨hev, by simp [processFrame, hev, applyEvent]⟩
  · intro s hs
    simp [handleByte, hs, END_OF_FRAME]

/-- Witness for C8 (amended): a 6-byte frame with module id `0x09` is dropped
from the fresh state, and an end marker while in-frame clears the flag. -/
theorem invalid_frame_dropped_witness :
    (frameEvent [0x09, 0x01, 0x01, 0x02, 0x01, 0x01] = none ∧
      processFrame GamePadState.init [0x09, 0x01, 0x01, 0x02, 0x01, 0x01] =
        GamePadState.init) ∧
    ((handleByte ⟨0, 0, 0, [0x09], true⟩ END_OF_FRAME).1).inFrame = false :=
  ⟨invalid_frame_dropped.1 GamePadState.init [0x09, 0x01, 0x01, 0x02, 0x01, 0x01]
      (Or.inr (by decide)),
    invalid_frame_dropped.2 ⟨0, 0, 0, [0x09], true⟩ rfl⟩

/-- C9 counterexample: the well-formed analog frame whose payload byte is
`0xC0` (reachable, since `0xC0` only acts as a marker outside a frame) decodes
to an angle of 360°, outside the claimed 0..359 range. -/
theorem analog_angle_can_exceed_359 :
    (GamePadState.init.poll
        [0xC0, 0x01, 0x02, 0x01, 0x02, 0x00, 0xC0, 0xC1]).mode = 1 ∧
    getAngle (GamePadState.init.poll
        [0xC0, 0x01, 0x02, 0x01, 0x02, 0x00, 0xC0, 0xC1]) = 360 ∧
    ¬ getAngle (GamePadState.init.poll
        [0xC0, 0x01, 0x02, 0x01, 0x02, 0x00, 0xC0, 0xC1]) ≤ 359 := by
  decide

/-- C9 amended: for every analog-mode state whose cached payload byte is in
0..255, `get_angle` returns `(value >>> 3) * 15`, always a multiple of 15 and
at most 465 (it lies in 0..359 exactly when the byte is below 0xC0), and
`get_radius` returns `value &&& 7`, always in 0..7. -/
theorem analog_angle_radius_range (s : GamePadState)
    (hm : s.mode ≠ 0) (hv : s.value < 256) :
    getAngle s = (s.value >>> 3) * 15 ∧
    15 ∣ getAngle s ∧
    getAngle s ≤ 465 ∧
    (getAngle s ≤ 359 ↔ s.value < 192) ∧
    getRadius s = s.value &&& 0x07 ∧
    getRadius s ≤ 7 := by
  have ha : getAngle s = (s.value >>> 3) * 15 := by
    simp [getAngle, hm]
  have hr : getRadius s = s.value &&& 0x07 := by
    simp [getRadius, hm]
  have hdiv : s.value >>> 3 = s.value / 8 := Nat.shiftRight_eq_div_pow s.value 3
  refine ⟨ha, ha ▸ dvd_mul_left 15 _, ?_, ?_, hr, ?_⟩
  · rw [ha, hdiv]
    omega
  · rw [ha, hdiv]
    omega
  · rw [hr]
    exact Nat.and_le_right

/-- Witness for C9 (amended) at the spec's example byte `0x37`:
angle 90°, radius 7. -/
theorem analog_angle_radius_range_witness :
    getAngle ⟨1, 0, 0x37, [], false⟩ = 90 ∧ getRadius ⟨1, 0, 0x37, [], false⟩ = 7 :=
  ⟨((analog_angle_radius_range ⟨1, 0, 0x37, [], false⟩ (by decide) (by decide)).1).trans
      (by decide),
    ((analog_angle_radius_range ⟨1, 0, 0x37, [], false⟩ (by decide)
      (by decide)).2.2.2.2.1).trans (by decide)⟩

/-- C10: `is_start_pressed` depends only on bit 0 of `value0`, independent of
the decoder mode, and an analog/accelerometer frame overwrites `value0` with
its first payload byte; consequently, after any well-formed analog frame whose
first payload byte has bit 0 set, `GamepadAIDriverController.update` selects
the emergency brake instead of translating the analog stick input (the
resulting state is in analog mode, so the analog branch would otherwise have
been reached). -/
theorem start_bit_overrides_analog :
    (∀ (s : GamePadState) (m : Nat),
        isStartPressed { s with mode := m } = isStartPressed s) ∧
    (∀ (s : GamePadState) (v0 v : Nat),
        (applyEvent s (some (.analog v0 v))).value0 = v0) ∧
    (∀ (g : GamePadState) (f ac ln v0 v : Nat),
        g.inFrame = false → f = 0x02 ∨ f = 0x03 → v0 % 2 = 1 →
        ac ≠ END_OF_FRAME → ln ≠ END_OF_FRAME → v0 ≠ END_OF_FRAME →
        v ≠ END_OF_FRAME →
        (controllerUpdate g
            [START_OF_FRAME, 0x01, f, ac, ln, v0, v, END_OF_FRAME]).1.mode = 1 ∧
        (controllerUpdate g
            [START_OF_FRAME, 0x01, f, ac, ln, v0, v, END_OF_FRAME]).1.value0 = v0 ∧
        (controllerUpdate g
            [START_OF_FRAME, 0x01, f, ac, ln, v0, v, END_OF_FRAME]).2 =
          DriverAction.brake) := by
  refine ⟨fun s m => rfl, fun s v0 v => rfl, ?_⟩
  intro g f ac ln v0 v hg hf hv0 hac hln hv0ne hvne
  simp only [START_OF_FRAME, END_OF_FRAME] at *
  have hand : v0 &&& 1 = 1 := by
    rw [Nat.and_one_is_mod]
    exact hv0
  have hpoll : g.poll [192, 1, f, ac, ln, v0, v, 193] =
      ⟨1, v0, v, [1, f, ac, ln, v0, v], false⟩ := by
    rcases hf with rfl | rfl <;>
      simp [GamePadState.poll, handleByte, hg, hac, hln, hv0ne, hvne,
        processFrame, applyEvent, frameEvent, START_OF_FRAME, END_OF_FRAME]
  have hupdate : controllerUpdate g [192, 1, f, ac, ln, v0, v, 193] =
      (⟨1, v0, v, [1, f, ac, ln, v0, v], false⟩, DriverAction.brake) := by
    simp only [controllerUpdate, hpoll]
    simp [isStartPressed, hand]
  rw [hupdate]
  exact ⟨rfl, rfl, rfl⟩

/-- Witness for C10 at the concrete analog frame
`[0xC0, 0x01, 0x02, 0x01, 0x02, 0x01, 0x00, 0xC1]` (first payload byte 0x01):
the controller brakes from the fresh decoder state. -/
theorem start_bit_overrides_analog_witness :
    (controllerUpdate GamePadState.init
        [START_OF_FRAME, 0x01, 0x02, 0x01, 0x02, 0x01, 0x00, END_OF_FRAME]).1.mode = 1 ∧
    (controllerUpdate GamePadState.init
        [START_OF_FRAME, 0x01, 0x02, 0x01, 0x02, 0x01, 0x00, END_OF_FRAME]).1.value0 = 1 ∧
    (controllerUpdate GamePadState.init
        [START_OF_FRAME, 0x01, 0x02, 0x01, 0x02, 0x01, 0x00, END_OF_FRAME]).2 =
      DriverAction.brake :=
  start_bit_overrides_analog.2.2 GamePadState.init 0x02 0x01 0x02 0x01 0x00
    rfl (Or.inl rfl) (by decide) (by decide) (by decide) (by decide) (by decide)

/-- The number of complete 4-byte packets is the available byte count
divided by 4. -/
theorem packets4_length (buffer : List Nat) (idx : Nat) :
    (packets4 buffer idx).length = (buffer.length - idx) / 4 := by
  induction idx using packets4.induct buffer with
  | case1 idx h ih =>
    rw [packets4]
    simp only [dif_pos h, List.length_cons, ih]
    omega
  | case2 idx h =>
    rw [packets4]
    simp only [dif_neg h, List.length_nil]
    omega

/-- The packet loop consumes exactly the complete 4-byte packets, folding the
decode over them in arrival order, and reports whether it consumed any. -/
theorem pollLoop_spec (buffer : List Nat) (idx : Nat) (c : Cmd) (now : Int)
    (upd : Bool) :
    pollLoop buffer idx c now upd =
      (idx + 4 * (packets4 buffer idx).length,
        (packets4 buffer idx).foldl (fun a p => decodePacket a p now) c,
        upd || !(packets4 buffer idx).isEmpty) := by
  induction idx, c, now, upd using pollLoop.induct buffer with
  | case1 idx c now upd h ih =>
    rw [pollLoop, packets4]
    simp only [dif_pos h, ih, List.length_cons, List.foldl_cons,
      Bool.or_true, Bool.true_or, Prod.mk.injEq]
    refine ⟨by omega, ?_, ?_⟩ <;> simp
  | case2 idx c now upd h =>
    rw [pollLoop, packets4]
    simp [dif_neg h]

/-- When at most 3 unconsumed bytes remain, the trimmed buffer stays well
under the 64-byte cap (at most 32 consumed + 3 unconsumed bytes). -/
theorem trimBuffer_length_le (buffer : List Nat) (idx : Nat)
    (h : buffer.length - idx < 4) : (trimBuffer buffer idx).1.length ≤ 35 := by
  unfold trimBuffer
  split
  · split
    · simp
    · split <;> simp <;> omega
  · simp
    omega

/-- Embeds `poll` when at least one complete 4-byte packet is available: it reports
an update and the final command is the decode fold over all complete packets
in arrival order. -/
theorem poll_eq_of_packets (s : HM10State) (data : List Nat) (now : Int)
    (hne : packets4 (s.buffer ++ data) s.bufferIndex ≠ []) :
    s.poll data now =
      (true,
        ⟨(trimBuffer (s.buffer ++ data)
            (s.bufferIndex + 4 * (packets4 (s.buffer ++ data) s.bufferIndex).length)).1,
          (trimBuffer (s.buffer ++ data)
            (s.bufferIndex + 4 * (packets4 (s.buffer ++ data) s.bufferIndex).length)).2,
          (packets4 (s.buffer ++ data) s.bufferIndex).foldl
            (fun a p => decodePacket a p now) s.cmd⟩) := by
  have hlen := packets4_length (s.buffer ++ data) s.bufferIndex
  have hexit : (s.buffer ++ data).length -
      (s.bufferIndex + 4 * (packets4 (s.buffer ++ data) s.bufferIndex).length) < 4 := by
    omega
  have htrim := trimBuffer_length_le _ _ hexit
  have hene : (packets4 (s.buffer ++ data) s.bufferIndex).isEmpty = false := by
    simpa [List.isEmpty_iff] using hne
  unfold HM10State.poll
  simp only [pollLoop_spec, Bool.false_or, hene, Bool.not_false]
  have hcond : ¬ (¬ True ∧
      (s.buffer ++ data).length -
        (s.bufferIndex + 4 * (packets4 (s.buffer ++ data) s.bufferIndex).length) ≥ 3) := by
    simp
  rw [if_neg hcond]
  have hover : ¬ ((trimBuffer (s.buffer ++ data)
      (s.bufferIndex + 4 * (packets4 (s.buffer ++ data) s.bufferIndex).length)).1.length >
        maxBufferBytes) := by
    unfold maxBufferBytes
    omega
  rw [if_neg hover]

/-- Embeds `poll` when no 4-byte packet is available but at least 3 bytes are: the
legacy 3-byte fallback decodes once. -/
theorem poll_eq_of_fallback (s : HM10State) (data : List Nat) (now : Int)
    (hps : packets4 (s.buffer ++ data) s.bufferIndex = [])
    (h3 : 3 ≤ (s.buffer ++ data).length - s.bufferIndex) :
    s.poll data now =
      (true,
        ⟨(trimBuffer (s.buffer ++ data) (s.bufferIndex + 3)).1,
          (trimBuffer (s.buffer ++ data) (s.bufferIndex + 3)).2,
          decodePacket s.cmd
            (((s.buffer ++ data).drop s.bufferIndex).take 3) now⟩) := by
  have hlen := packets4_length (s.buffer ++ data) s.bufferIndex
  have h0 : ((s.buffer ++ data).length - s.bufferIndex) / 4 = 0 := by
    rw [← hlen, hps]
    rfl
  have hexit : (s.buffer ++ data).length - (s.bufferIndex + 3) < 4 := by omega
  have htrim := trimBuffer_length_le _ _ hexit
  unfold HM10State.poll
  simp only [pollLoop_spec, Bool.false_or, hps, List.isEmpty_nil, Bool.not_true,
    List.length_nil, Nat.mul_zero, Nat.add_zero, List.foldl_nil]
  have hcond : ¬ (false : Bool) = true ∧
      (s.buffer ++ data).length - s.bufferIndex ≥ 3 := ⟨by simp, h3⟩
  rw [if_pos hcond]
  have hover : ¬ ((trimBuffer (s.buffer ++ data) (s.bufferIndex + 3)).1.length >
      maxBufferBytes) := by
    unfold maxBufferBytes
    omega
  rw [if_neg hover]

/-- Embeds `poll` when fewer than 3 bytes are available: nothing is consumed and the
command state is untouched. -/
theorem poll_eq_of_starved (s : HM10State) (data : List Nat) (now : Int)
    (hps : packets4 (s.buffer ++ data) s.bufferIndex = [])
    (h3 : (s.buffer ++ data).length - s.bufferIndex < 3) :
    s.poll data now =
      (false,
        ⟨(trimBuffer (s.buffer ++ data) s.bufferIndex).1,
          (trimBuffer (s.buffer ++ data) s.bufferIndex).2, s.cmd⟩) := by
  have hexit : (s.buffer ++ data).length - s.bufferIndex < 4 := by omega
  have htrim := trimBuffer_length_le _ _ hexit
  unfold HM10State.poll
  simp only [pollLoop_spec, Bool.false_or, hps, List.isEmpty_nil, Bool.not_true,
    List.length_nil, Nat.mul_zero, Nat.add_zero, List.foldl_nil]
  have hcond : ¬ (¬ (false : Bool) = true ∧
      (s.buffer ++ data).length - s.bufferIndex ≥ 3) := by
    intro hc
    omega
  rw [if_neg hcond]
  have hover : ¬ ((trimBuffer (s.buffer ++ data) s.bufferIndex).1.length >
      maxBufferBytes) := by
    unfold maxBufferBytes
    omega
  rw [if_neg hover]

/-- C3 counterexample: the GamePad frame decoder has no buffer cap.  Feeding
the start marker followed by 70 in-frame bytes leaves 70 buffered bytes —
above the claimed 64-byte maximum — with no reset performed (the decoder is
still mid-frame). -/
theorem gamepad_frame_buffer_unbounded :
    (GamePadState.init.poll (START_OF_FRAME :: List.replicate 70 0)).frame.length = 70 ∧
    64 < (GamePadState.init.poll (START_OF_FRAME :: List.replicate 70 0)).frame.length ∧
    (GamePadState.init.poll (START_OF_FRAME :: List.replicate 70 0)).inFrame = true := by
  decide

/-- C3 amended: for the HM10Controller packet decoder, after any poll the
receive buffer holds at most `maxBufferBytes` (64) bytes; `reset` clears the
buffer, zeroes the consumed index and clears the cached command state; and
from a reset state a subsequent well-formed 4-byte packet is decoded
correctly.  (The GamePad frame buffer has no such cap.) -/
theorem hm10_buffer_bounded_and_resync :
    (∀ (s : HM10State) (data : List Nat) (now : Int),
        ((s.poll data now).2).buffer.length ≤ maxBufferBytes) ∧
    (∀ now : Int, HM10State.reset now = ⟨[], 0, ⟨0, 0, 0, 0, now⟩⟩) ∧
    (∀ (now now2 : Int) (p0 p1 p2 p3 : Nat),
        (HM10State.reset now).poll [p0, p1, p2, p3] now2 =
          (true, ⟨[], 0, decodePacket (Cmd.init now) [p0, p1, p2, p3] now2⟩)) := by
  refine ⟨?_, fun now => rfl, ?_⟩
  · intro s data now
    have hlen := packets4_length (s.buffer ++ data) s.bufferIndex
    rcases eq_or_ne (packets4 (s.buffer ++ data) s.bufferIndex) [] with hps | hps
    · have h0 : ((s.buffer ++ data).length - s.bufferIndex) / 4 = 0 := by
        rw [← hlen, hps]
        rfl
      by_cases h3 : 3 ≤ (s.buffer ++ data).length - s.bufferIndex
      · rw [poll_eq_of_fallback s data now hps h3]
        have htr := trimBuffer_length_le (s.buffer ++ data) (s.bufferIndex + 3)
          (by omega)
        show (trimBuffer (s.buffer ++ data) (s.bufferIndex + 3)).1.length ≤
          maxBufferBytes
        unfold maxBufferBytes
        omega
      · rw [poll_eq_of_starved s data now hps (by omega)]
        have htr := trimBuffer_length_le (s.buffer ++ data) s.bufferIndex (by omega)
        show (trimBuffer (s.buffer ++ data) s.bufferIndex).1.length ≤ maxBufferBytes
        unfold maxBufferBytes
        omega
    · rw [poll_eq_of_packets s data now hps]
      have htr := trimBuffer_length_le (s.buffer ++ data)
        (s.bufferIndex + 4 * (packets4 (s.buffer ++ data) s.bufferIndex).length)
        (by omega)
      show (trimBuffer (s.buffer ++ data)
        (s.bufferIndex + 4 * (packets4 (s.buffer ++ data) s.bufferIndex).length)).1.length ≤
          maxBufferBytes
      unfold maxBufferBytes
      omega
  · intro now now2 p0 p1 p2 p3
    have hp2 : packets4 [p0, p1, p2, p3] 4 = [] := by
      rw [packets4]
      simp
    have hp : packets4 [p0, p1, p2, p3] 0 = [[p0, p1, p2, p3]] := by
      rw [packets4]
      simp [hp2]
    have hne : packets4 ((HM10State.reset now).buffer ++ [p0, p1, p2, p3])
        (HM10State.reset now).bufferIndex ≠ [] := by
      simp [HM10State.reset, hp]
    rw [poll_eq_of_packets (HM10State.reset now) [p0, p1, p2, p3] now2 hne]
    simp [HM10State.reset, hp, trimBuffer, Cmd.init]

/-- C4: one `poll` call consumes every complete 4-byte packet present (their
count is the available byte count divided by 4), folding the decode over them
in arrival order; the legacy 3-byte decode happens only when no 4-byte packet
was available, and then the prior counter is retained; `poll` returns `True`
exactly when at least one packet (4-byte or legacy 3-byte) was consumed,
i.e. when at least 3 bytes were available. -/
theorem hm10_poll_consumes_all_packets (s : HM10State) (data : List Nat)
    (now : Int) :
    ((packets4 (s.buffer ++ data) s.bufferIndex).length =
        ((s.buffer ++ data).length - s.bufferIndex) / 4) ∧
    ((s.poll data now).1 = true ↔
        3 ≤ (s.buffer ++ data).length - s.bufferIndex) ∧
    (packets4 (s.buffer ++ data) s.bufferIndex ≠ [] →
        (s.poll data now).2.cmd =
          (packets4 (s.buffer ++ data) s.bufferIndex).foldl
            (fun a p => decodePacket a p now) s.cmd) ∧
    (packets4 (s.buffer ++ data) s.bufferIndex = [] →
        3 ≤ (s.buffer ++ data).length - s.bufferIndex →
        (s.poll data now).2.cmd =
          decodePacket s.cmd (((s.buffer ++ data).drop s.bufferIndex).take 3) now ∧
        (s.poll data now).2.cmd.counter = s.cmd.counter) := by
  have hlen := packets4_length (s.buffer ++ data) s.bufferIndex
  refine ⟨hlen, ?_, ?_, ?_⟩
  · rcases eq_or_ne (packets4 (s.buffer ++ data) s.bufferIndex) [] with hps | hps
    · by_cases h3 : 3 ≤ (s.buffer ++ data).length - s.bufferIndex
      · rw [poll_eq_of_fallback s data now hps h3]
        exact iff_of_true rfl h3
      · rw [poll_eq_of_starved s data now hps (by omega)]
        exact iff_of_false (by simp) h3
    · rw [poll_eq_of_packets s data now hps]
      have hpos : 0 < (packets4 (s.buffer ++ data) s.bufferIndex).length :=
        List.length_pos.mpr hps
      exact iff_of_true rfl (by omega)
  · intro hps
    rw [poll_eq_of_packets s data now hps]
  · intro hps h3
    rw [poll_eq_of_fallback s data now hps h3]
    refine ⟨rfl, ?_⟩
    have hlt : ¬ 3 < (((s.buffer ++ data).drop s.bufferIndex).take 3).length := by
      rw [List.length_take]
      omega
    show (decodePacket s.cmd (((s.buffer ++ data).drop s.bufferIndex).take 3)
      now).counter = s.cmd.counter
    simp [decodePacket, hlt]

/-- Witness for C4 at a concrete two-packet burst: both 4-byte packets are
consumed in order, and a lone 3-byte packet retains the old counter. -/
theorem hm10_poll_consumes_all_packets_witness :
    ((⟨[], 0, Cmd.init 9⟩ : HM10State).poll [1, 2, 3, 4, 0, 127, 128, 5] 7).2.cmd =
      (packets4 [1, 2, 3, 4, 0, 127, 128, 5] 0).foldl
        (fun a p => decodePacket a p 7) (Cmd.init 9) ∧
    ((⟨[], 0, Cmd.init 9⟩ : HM10State).poll [0, 10, 20] 7).2.cmd.counter =
      (Cmd.init 9).counter := by
  constructor
  · exact (hm10_poll_consumes_all_packets ⟨[], 0, Cmd.init 9⟩
      [1, 2, 3, 4, 0, 127, 128, 5] 7).2.2.1
      (by rw [packets4]; simp)
  · exact ((hm10_poll_consumes_all_packets ⟨[], 0, Cmd.init 9⟩ [0, 10, 20] 7).2.2.2
      (by rw [packets4]; simp) (by simp)).2

end AIDriver
